import Mathlib

/-!
Verification development for the PopActaDraftApp backend.

The definitions below are a shallow embedding of the Python sources:
  backend/app/models.py            (data model)
  backend/app/services/vorp.py     (Need Resolver, Pool Ranker, Drop Scorer)
  backend/app/main.py              (pick-assignment endpoint toggle_drafted)
  backend/app/services/player_import.py (bulk CSV import)

Conventions of the embedding:
  - Python floats are modelled as exact rationals.
  - SQL NULL is modelled as Option.none.
  - A SQLAlchemy query result is a Lean list; `ORDER BY projected_points DESC`
    orders NULLs last (SQLite treats NULL as smaller than every value, so
    descending order puts NULLs at the end).  The relative order of rows with
    equal sort keys is not specified by the query; `IsPoolResult` below captures
    exactly what the query guarantees, while `sorted_pool` is one concrete
    ordering consistent with it (used to make the engine executable).
  - Python dicts keyed by player id are modelled as functions
    `Nat -> Option Rat`; assignment is pointwise update, which overwrites.
  - Python ints are modelled as Int, database ids as Nat.
-/

namespace PopActa

/-- Player row, from models.py (class Player).  `projected_points` and the
pick-number columns are nullable. -/
structure Player where
  id : Nat
  name : String
  position : String
  team : String
  projected_points : Option ℚ
  bye_week : Option Int
  predicted_pick_number : Option Int
  actual_pick_number : Option Int
deriving DecidableEq, Repr

/-- Draft settings row, from models.py (class DraftSettings). -/
structure DraftSettings where
  total_teams : Int
  rounds : Int
  qb_slots : Int
  rb_slots : Int
  wr_slots : Int
  te_slots : Int
  flex_slots : Int
deriving DecidableEq, Repr

/-- A database snapshot: at most one DraftSettings row, plus the players table. -/
structure DB where
  settings : Option DraftSettings
  players : List Player
deriving DecidableEq, Repr

/-- The Python dict used as the drop-score map (player id -> drop). -/
def DropMap : Type := Nat → Option ℚ

/-- An empty dict. -/
def emptyMap : DropMap := fun _ => none

/-- `store[pid] = v` on a Python dict: overwrites any previous binding. -/
def dictSet (store : DropMap) (pid : Nat) (v : ℚ) : DropMap :=
  fun x => if x = pid then some v else store x

/-- Sort key of a player for `ORDER BY projected_points DESC`: NULL is below
every value (SQLite semantics), so descending order puts NULLs last. -/
def projKey (p : Player) : WithBot ℚ :=
  match p.projected_points with
  | none => ⊥
  | some v => (v : WithBot ℚ)

/-- `p` may come no later than `q` in a descending-order pool. -/
def poolLe (p q : Player) : Prop := projKey q ≤ projKey p

instance : DecidableRel poolLe :=
  fun p q => inferInstanceAs (Decidable (projKey q ≤ projKey p))

instance : IsTotal Player poolLe := ⟨fun p q => le_total (projKey q) (projKey p)⟩

instance : IsTrans Player poolLe :=
  ⟨fun _ _ _ h h2 => le_trans h2 h⟩

/-- vorp.py `_sorted_pool`: all players matching the filter, ordered by
descending projected points (NULLs last).  The concrete sort is one ordering
consistent with the query; see `IsPoolResult` for the relational version. -/
def sorted_pool (db : DB) (whereq : Player → Bool) : List Player :=
  List.insertionSort poolLe (db.players.filter whereq)

/-- What `ORDER BY projected_points DESC` actually pins down about the result
list: it is some permutation of the matching rows that is sorted by descending
projected points.  Ties are not ordered by the query. -/
def IsPoolResult (db : DB) (whereq : Player → Bool) (l : List Player) : Prop :=
  l.Perm (db.players.filter whereq) ∧ l.Sorted poolLe

/-- vorp.py `_count_drafted`: players at the position whose
`actual_pick_number` is not NULL. -/
def count_drafted (db : DB) (pos : String) : Int :=
  ((db.players.filter
      (fun p => p.position == pos && p.actual_pick_number.isSome)).length : Int)

/-- CPython index normalization for slices: negative indices count from the
end; then clamp into `[0, n]`. -/
def pyIdx (n i : Int) : Int :=
  max 0 (min (if i < 0 then i + n else i) n)

/-- Python list slice `l[start:stop]` (non-negative and negative indices,
clamped, as in CPython). -/
def pySlice {α : Type} (l : List α) (start stop : Int) : List α :=
  (l.drop (pyIdx (l.length : Int) start).toNat).take
    ((pyIdx (l.length : Int) stop).toNat - (pyIdx (l.length : Int) start).toNat)

/-- statistics.mean on a nonempty list of numbers. -/
def qmean (l : List ℚ) : ℚ := l.sum / (l.length : ℚ)

/-- One iteration of the loop in vorp.py `score_pool` (body for index `i`,
player `p`): slice the next `k` players (`nxt = pool[i+1 : i+1+k]`), skip if
the slice is empty, skip if `p` has NULL projected points, drop NULL values
from the slice (`next_points`), skip if none remain, otherwise write the drop
score of `p` into the store.  The locals `nxt` and `next_points` of the
source are inlined. -/
def scoreStep (k : Int) (pool : List Player) (st : DropMap) (ip : Nat × Player) :
    DropMap :=
  if (pySlice pool ((ip.1 : Int) + 1) ((ip.1 : Int) + 1 + k)).isEmpty then st
  else
    match ip.2.projected_points with
    | none => st
    | some v =>
      if ((pySlice pool ((ip.1 : Int) + 1) ((ip.1 : Int) + 1 + k)).filterMap
            (fun x => x.projected_points)).isEmpty then st
      else
        dictSet st ip.2.id
          (v - qmean ((pySlice pool ((ip.1 : Int) + 1) ((ip.1 : Int) + 1 + k)).filterMap
            (fun x => x.projected_points)))

/-- vorp.py `score_pool` (closure inside compute_vorp_drop): enumerate the
pool and run the loop body, threading the store. -/
def score_pool (k : Int) (pool : List Player) (store : DropMap) : DropMap :=
  pool.enum.foldl (scoreStep k pool) store

/-- vorp.py: `total_needed_qb = teams * qb_slots`, and likewise for the other
positions and FLEX. -/
def total_needed_qb (s : DraftSettings) : Int := s.total_teams * s.qb_slots

def total_needed_rb (s : DraftSettings) : Int := s.total_teams * s.rb_slots

def total_needed_wr (s : DraftSettings) : Int := s.total_teams * s.wr_slots

def total_needed_te (s : DraftSettings) : Int := s.total_teams * s.te_slots

def total_needed_flex (s : DraftSettings) : Int := s.total_teams * s.flex_slots

/-- vorp.py: `need_qb = max(0, total_needed_qb - drafted_qb)`, etc. -/
def need_qb (db : DB) (s : DraftSettings) : Int :=
  max 0 (total_needed_qb s - count_drafted db "QB")

def need_rb (db : DB) (s : DraftSettings) : Int :=
  max 0 (total_needed_rb s - count_drafted db "RB")

def need_wr (db : DB) (s : DraftSettings) : Int :=
  max 0 (total_needed_wr s - count_drafted db "WR")

def need_te (db : DB) (s : DraftSettings) : Int :=
  max 0 (total_needed_te s - count_drafted db "TE")

/-- vorp.py line 60: `flex_eligible_positions = ("RB", "WR", "QB")`. -/
def flex_eligible_positions : List String := ["RB", "WR", "QB"]

/-- vorp.py lines 63-65: surplus at a position counts toward FLEX only when
that position is FLEX-eligible. -/
def surplus_qb (db : DB) (s : DraftSettings) : Int :=
  if "QB" ∈ flex_eligible_positions then
    max 0 (count_drafted db "QB" - total_needed_qb s)
  else 0

def surplus_rb (db : DB) (s : DraftSettings) : Int :=
  if "RB" ∈ flex_eligible_positions then
    max 0 (count_drafted db "RB" - total_needed_rb s)
  else 0

def surplus_wr (db : DB) (s : DraftSettings) : Int :=
  if "WR" ∈ flex_eligible_positions then
    max 0 (count_drafted db "WR" - total_needed_wr s)
  else 0

/-- vorp.py line 67:
`need_flex = max(0, total_needed_flex - (surplus_qb + surplus_rb + surplus_wr))`. -/
def need_flex (db : DB) (s : DraftSettings) : Int :=
  max 0 (total_needed_flex s - (surplus_qb db s + surplus_rb db s + surplus_wr db s))

/-- The filter of the FLEX pool query:
`or_(*[Player.position == pos for pos in flex_eligible_positions])`. -/
def flexWhere (p : Player) : Bool :=
  flex_eligible_positions.contains p.position

/-- vorp.py `compute_vorp_drop`: returns the empty dict when no DraftSettings
row exists; otherwise scores each position pool whose starter need is
positive, then the FLEX pool if FLEX need is positive, all into one dict. -/
def compute_vorp_drop (db : DB) (k : Int) : DropMap :=
  match db.settings with
  | none => emptyMap
  | some s =>
    let out0 := emptyMap
    let out1 := if need_qb db s > 0 then
        score_pool k (sorted_pool db (fun p => p.position == "QB")) out0
      else out0
    let out2 := if need_rb db s > 0 then
        score_pool k (sorted_pool db (fun p => p.position == "RB")) out1
      else out1
    let out3 := if need_wr db s > 0 then
        score_pool k (sorted_pool db (fun p => p.position == "WR")) out2
      else out2
    let out4 := if need_te db s > 0 then
        score_pool k (sorted_pool db (fun p => p.position == "TE")) out3
      else out3
    if need_flex db s > 0 && !flex_eligible_positions.isEmpty then
      score_pool k (sorted_pool db flexWhere) out4
    else out4

/-! ### Pick assignment, from main.py `toggle_drafted` -/

/-- Maximum of a list of ints, as SQL `MAX` (none on an empty table). -/
def listMax : List Int → Option Int
  | [] => none
  | x :: xs =>
    match listMax xs with
    | none => some x
    | some m => some (max x m)

/-- main.py line 122: `(db.query(func.max(Player.actual_pick_number)).scalar() or 0)`.
`x or 0` in Python maps None to 0 and keeps every nonzero int, and `0 or 0`
is 0, so this is exactly `getD 0`. -/
def max_pick_or0 (players : List Player) : Int :=
  (listMax (players.filterMap (fun p => p.actual_pick_number))).getD 0

/-- The assigned pick numbers of a player list. -/
def assigned_picks (players : List Player) : List Int :=
  players.filterMap (fun p => p.actual_pick_number)

/-- Write back a mutation of the player with the given id (SQLAlchemy commit of
an attribute change on the row found by id). -/
def updatePlayer (players : List Player) (pid : Nat) (f : Player → Player) :
    List Player :=
  players.map (fun q => if q.id == pid then f q else q)

/-- main.py `toggle_drafted`: 404 (`none`) when the player does not exist;
otherwise assign `max(existing picks, or 0) + 1` if undrafted, else clear the
pick number. -/
def toggle_drafted (players : List Player) (pid : Nat) : Option (List Player) :=
  match players.find? (fun p => p.id == pid) with
  | none => none
  | some p =>
    match p.actual_pick_number with
    | none =>
      let next_pick := max_pick_or0 players + 1
      some (updatePlayer players pid
        (fun q => { q with actual_pick_number := some next_pick }))
    | some _ =>
      some (updatePlayer players pid
        (fun q => { q with actual_pick_number := none }))

/-- A sequence of toggle calls (each one draft or undraft as the state
dictates); `none` as soon as any lookup 404s. -/
def toggle_sequence (players : List Player) : List Nat → Option (List Player)
  | [] => some players
  | pid :: rest =>
    match toggle_drafted players pid with
    | none => none
    | some players2 => toggle_sequence players2 rest

/-! ### Bulk CSV import, from services/player_import.py

The embedding starts where `csv.DictReader` hands the code a header
(`reader.fieldnames`) and one association list of header-name/cell pairs per
data row; UTF-8 decoding and CSV tokenization are external library behavior.
Python string methods are modelled explicitly (`pyStrip`, `pyLower`,
`pyUpper`); `float()` and `int()` are modelled on plain decimal literals,
which is the shape of every cell the import feeds them. -/

/-- Python str.strip() (ASCII whitespace). -/
def pyStrip (s : String) : String :=
  ⟨((s.data.dropWhile Char.isWhitespace).reverse.dropWhile
      Char.isWhitespace).reverse⟩

/-- Python str.lower() (ASCII letters). -/
def pyLower (s : String) : String := ⟨s.data.map Char.toLower⟩

/-- Python str.upper() (ASCII letters). -/
def pyUpper (s : String) : String := ⟨s.data.map Char.toUpper⟩

/-- Digits of a nonempty decimal string, as a number; `none` when any
character is not a digit. -/
def decDigits : List Char → Option Nat
  | [] => none
  | cs =>
    cs.foldl
      (fun acc c =>
        match acc with
        | none => none
        | some n => if c.isDigit then some (n * 10 + (c.toNat - 48)) else none)
      (some 0)

/-- Split a character list at the first dot. -/
def splitAtDot : List Char → List Char × Option (List Char)
  | [] => ([], none)
  | c :: rest =>
    if c = '.' then ([], some rest)
    else
      let r := splitAtDot rest
      (c :: r.1, r.2)

/-- Python `int(v)` on a stripped string: optional sign, then digits. -/
def pyInt (v : String) : Option Int :=
  match v.data with
  | [] => none
  | '-' :: rest => (decDigits rest).map (fun n => -(n : Int))
  | '+' :: rest => (decDigits rest).map (fun n => (n : Int))
  | cs => (decDigits cs).map (fun n => (n : Int))

/-- Python `float(v)` on a stripped plain decimal literal: optional sign,
digits, optional dot and fraction digits (at least one digit overall). -/
def pyFloat (v : String) : Option ℚ :=
  let core : List Char → Option ℚ := fun cs =>
    let ip := (splitAtDot cs).1
    match (splitAtDot cs).2 with
    | none => (decDigits ip).map (fun n => (n : ℚ))
    | some fp =>
      match ip, fp with
      | [], [] => none
      | [], _ => (decDigits fp).map (fun f => (f : ℚ) / (10 : ℚ) ^ fp.length)
      | _, [] => (decDigits ip).map (fun n => (n : ℚ))
      | _, _ =>
        match decDigits ip, decDigits fp with
        | some n, some f => some ((n : ℚ) + (f : ℚ) / (10 : ℚ) ^ fp.length)
        | _, _ => none
  match v.data with
  | [] => none
  | '-' :: rest => (core rest).map (fun q => -q)
  | '+' :: rest => core rest
  | cs => core cs

/-- player_import.py `_parse_int`: ValueError messages are the `Except.error`
strings. -/
def parse_int (val : String) (allow_none : Bool) : Except String (Option Int) :=
  let v := pyStrip val
  if v == "" then
    if allow_none then .ok none else .error "value is required"
  else
    match pyInt v with
    | some n => .ok (some n)
    | none => .error "must be an integer"

/-- player_import.py `_parse_float`. -/
def parse_float (val : String) : Except String ℚ :=
  let v := pyStrip val
  match pyFloat v with
  | some q => .ok q
  | none => .error "must be a number"

/-- player_import.py `REQUIRED_COLUMNS`. -/
def REQUIRED_COLUMNS : List String := ["name", "position", "team", "projected_points"]

/-- player_import.py `OPTIONAL_COLUMNS`. -/
def OPTIONAL_COLUMNS : List String := ["predicted_pick_number", "bye_week"]

/-- A data row as csv.DictReader yields it: original header name -> cell text.
A key missing from the row reads as the empty string (DictReader fills
missing cells with None, and the code wraps every read in `or ""`). -/
def Row : Type := List (String × String)

def rowGet (row : Row) (key : String) : String :=
  match row.find? (fun kv => kv.1 == key) with
  | some kv => kv.2
  | none => ""

/-- player_import.py line 86: `key_map = (h.lower(): h for h in fieldnames)`,
a dict comprehension, so a later duplicate lowercased header wins.  `none`
models the KeyError a lookup of an absent key raises. -/
def key_map (fieldnames : List String) (k : String) : Option String :=
  fieldnames.reverse.find? (fun h => pyLower h == k)

/-- Read `row[key_map[k]]`; an absent key raises KeyError, which the per-row
`except Exception` turns into a row error. -/
def keyGet (fieldnames : List String) (row : Row) (k : String) :
    Except String String :=
  match key_map fieldnames k with
  | some h => .ok (rowGet row h)
  | none => .error ("KeyError: " ++ k)

/-- A Player object built by the import (no id yet, `actual_pick_number`
intentionally omitted). -/
structure NewPlayer where
  name : String
  position : String
  team : String
  projected_points : ℚ
  bye_week : Int
  predicted_pick_number : Option Int
deriving DecidableEq, Repr

/-- The `try` body of the row loop in `parse_players_csv` (lines 95-135).
`headers_lower` is the lowercased stripped header list (`header_set`). -/
def parse_row (fieldnames : List String) (headers_lower : List String)
    (row : Row) : Except String NewPlayer := do
  let rawName ← keyGet fieldnames row "name"
  let name := pyStrip rawName
  let rawPos ← keyGet fieldnames row "position"
  let position := pyUpper (pyStrip rawPos)
  let rawTeam ← keyGet fieldnames row "team"
  let team := pyUpper (pyStrip rawTeam)
  if name == "" then .error "name is required"
  else if position == "" then .error "position is required"
  else if team == "" then .error "team is required"
  else do
    let rawPP ← keyGet fieldnames row "projected_points"
    let projected_points ← parse_float rawPP
    let bye_week ←
      if headers_lower.contains "bye_week" then
        match key_map fieldnames "bye_week" with
        | none => Except.error ("KeyError: " ++ "bye_week")
        | some h =>
          match parse_int (rowGet row h) false with
          | .ok (some n) => Except.ok n
          | .ok none => Except.ok 0
          | .error _ => Except.ok 0
      else Except.ok 0
    let predicted_pick_number ←
      if headers_lower.contains "predicted_pick_number" then do
        let rawPred ← keyGet fieldnames row "predicted_pick_number"
        parse_int rawPred true
      else Except.ok none
    .ok ⟨name, position, team, projected_points, bye_week, predicted_pick_number⟩

/-- A row-level error: 1-based row number (header is row 1) and message. -/
structure RowError where
  row : Nat
  error : String
deriving DecidableEq, Repr

/-- The two shapes of CSVValidationError raised by `parse_players_csv`. -/
inductive ImportError where
  | headerError (missing : List String)
  | rowErrors (errors : List RowError)
deriving DecidableEq, Repr

/-- player_import.py `parse_players_csv` from the point where the CSV library
has produced the header and the data rows: header check, then the row loop
collecting players and errors, then all-or-nothing rejection. -/
def parse_players_csv (fieldnames : List String) (rows : List Row) :
    Except ImportError (List NewPlayer) :=
  let headers_lower := fieldnames.map (fun h => pyLower (pyStrip h))
  let missing := REQUIRED_COLUMNS.filter (fun c => !(headers_lower.contains c))
  if !missing.isEmpty then .error (.headerError missing)
  else
    let step := fun (acc : List NewPlayer × List RowError) (ir : Nat × Row) =>
      match parse_row fieldnames headers_lower ir.2 with
      | .ok pl => (acc.1 ++ [pl], acc.2)
      | .error e => (acc.1, acc.2 ++ [⟨ir.1 + 2, e⟩])
    let res := rows.enum.foldl step ([], [])
    if !res.2.isEmpty then .error (.rowErrors res.2)
    else .ok res.1

/-- Materialize the inserted rows: bulk insert into the emptied table with
fresh autoincrement ids 1..n (the import resets sqlite_sequence). -/
def mk_players (ps : List NewPlayer) : List Player :=
  ps.enum.map (fun ir =>
    ⟨ir.1 + 1, ir.2.name, ir.2.position, ir.2.team, some ir.2.projected_points,
      some ir.2.bye_week, ir.2.predicted_pick_number, none⟩)

/-- player_import.py `replace_players_transactionally`: inside one
transaction, delete every player and bulk-insert the new set; returns the
inserted count.  The transaction is atomic, so the embedding is a single
state change. -/
def replace_players_transactionally (_dbPlayers : List Player)
    (players : List NewPlayer) : List Player × Nat :=
  (mk_players players, players.length)

/-- main.py `reset_players` endpoint after upload: parse, and either reject
(players table untouched) or replace transactionally and report the count. -/
def reset_players (dbPlayers : List Player) (fieldnames : List String)
    (rows : List Row) : List Player × Except ImportError Nat :=
  match parse_players_csv fieldnames rows with
  | .error e => (dbPlayers, .error e)
  | .ok ps =>
    let r := replace_players_transactionally dbPlayers ps
    (r.1, .ok r.2)

/-! ### Auxiliary definitions used by the verification (not part of the
source; they restate pieces of it in proof-friendly form or build concrete
test snapshots). -/

/-- First-some choice on optional scores. -/
def orOpt (a b : Option ℚ) : Option ℚ :=
  match a with
  | some v => some v
  | none => b

/-- Projected points with NULL read as 0; used only to state theorems about
pools every member of which has a defined value. -/
def projQ (p : Player) : ℚ := p.projected_points.getD 0

/-- The loop body of `score_pool` specialised to the suffix view: for the
player `p` whose successors in the pool are exactly `rest`, the slice
`pool[i+1 : i+1+k]` is `rest.take k.toNat` (for `k ≥ 0`). -/
def stepOne (k : Int) (p : Player) (rest : List Player) (st : DropMap) : DropMap :=
  if (rest.take k.toNat).isEmpty then st
  else
    match p.projected_points with
    | none => st
    | some v =>
      if ((rest.take k.toNat).filterMap (fun x => x.projected_points)).isEmpty then st
      else
        dictSet st p.id
          (v - qmean ((rest.take k.toNat).filterMap (fun x => x.projected_points)))

/-- Structural-recursion form of `score_pool` (provably equal to it for
`k ≥ 0`). -/
def scoreRec (k : Int) : List Player → DropMap → DropMap
  | [], st => st
  | p :: rest, st => scoreRec k rest (stepOne k p rest st)

/-- The pick numbers `1, …, j` as a list. -/
def pickRange (j : Nat) : List Int :=
  (List.range j).map (fun (i : Nat) => (i : Int) + 1)

/-- Dispatcher for the per-position starter needs of compute_vorp_drop. -/
def need_pos (db : DB) (s : DraftSettings) (pos : String) : Int :=
  if pos = "QB" then need_qb db s
  else if pos = "RB" then need_rb db s
  else if pos = "WR" then need_wr db s
  else if pos = "TE" then need_te db s
  else 0

/-- The slot count a DraftSettings row assigns to a position. -/
def slots_of (s : DraftSettings) (pos : String) : Int :=
  if pos = "QB" then s.qb_slots
  else if pos = "RB" then s.rb_slots
  else if pos = "WR" then s.wr_slots
  else if pos = "TE" then s.te_slots
  else 0

/-- The drafted count per position, as a function. -/
def drafted_of (db : DB) (pos : String) : Int := count_drafted db pos

/-- Modelled from the spec (section 4.1, step 4): `neededFlex = max(0,
teams × flexSlots − Σ surplusPos over eligible positions)` with
`surplusPos = max(0, draftedPos − teams × slotsPos)`. -/
def needed_flex_spec (teams flexSlots : Int) (drafted slots : String → Int) : Int :=
  max 0 (teams * flexSlots -
    (flex_eligible_positions.map
      (fun pos => max 0 (drafted pos - teams * slots pos))).sum)

/-- Successful outcome of one import row, if any. -/
def rowOutcome (fieldnames headers_lower : List String) (ir : Nat × Row) :
    Option NewPlayer :=
  (parse_row fieldnames headers_lower ir.2).toOption

/-- Failure of one import row, if any, tagged with its 1-based row number. -/
def rowFailure (fieldnames headers_lower : List String) (ir : Nat × Row) :
    Option RowError :=
  match parse_row fieldnames headers_lower ir.2 with
  | .ok _ => none
  | .error e => some ⟨ir.1 + 2, e⟩

/-- The lowercased, stripped header list of an import. -/
def headersLower (fieldnames : List String) : List String :=
  fieldnames.map (fun h => pyLower (pyStrip h))

/-- The required-column check of an import. -/
def missingColumns (fieldnames : List String) : List String :=
  REQUIRED_COLUMNS.filter (fun c => !((headersLower fieldnames).contains c))

/-! ### Concrete snapshots used as witnesses and counterexamples -/

/-- Build a player row for a test snapshot. -/
def mkPlayer (i : Nat) (pos : String) (pts : Option ℚ) (pick : Option Int) :
    Player :=
  ⟨i, "", pos, "", pts, none, none, pick⟩

/-- The ranked pool of the spec scenario in section 8: six players with
projected values 30, 28, 25, 22, 20, 18. -/
def c1pool : List Player :=
  [mkPlayer 1 "RB" (some 30) none, mkPlayer 2 "RB" (some 28) none,
   mkPlayer 3 "RB" (some 25) none, mkPlayer 4 "RB" (some 22) none,
   mkPlayer 5 "RB" (some 20) none, mkPlayer 6 "RB" (some 18) none]

/-- Snapshot with a drafted QB still heading the QB pool: 1 team, 2 QB
starter slots, one QB already drafted at pick 1. -/
def c2db : DB :=
  ⟨some ⟨1, 16, 2, 0, 0, 0, 0⟩,
   [mkPlayer 1 "QB" (some 10) (some 1), mkPlayer 2 "QB" (some 5) none]⟩

/-- Snapshot where player 1 is scored both in the RB pool and in the FLEX
pool with different values: 1 team, 1 RB slot, 1 FLEX slot, and a QB whose
value lies between the top two RBs. -/
def c3db : DB :=
  ⟨some ⟨1, 16, 0, 1, 0, 0, 1⟩,
   [mkPlayer 1 "RB" (some 10) none, mkPlayer 2 "RB" (some 8) none,
    mkPlayer 3 "RB" (some 6) none, mkPlayer 4 "QB" (some 9) none]⟩

/-- Three undrafted players for exercising pick assignment. -/
def c4players : List Player :=
  [mkPlayer 1 "RB" (some 3) none, mkPlayer 2 "RB" (some 2) none,
   mkPlayer 3 "RB" (some 1) none]

/-- State where players 1 and 2 hold picks 1 and 2 and player 3 is
undrafted. -/
def c4players2 : List Player :=
  [mkPlayer 1 "RB" (some 3) (some 1), mkPlayer 2 "RB" (some 2) (some 2),
   mkPlayer 3 "RB" (some 1) none]

/-- Snapshot with something to score (two undrafted QBs, 1 QB slot open). -/
def c5db : DB :=
  ⟨some ⟨1, 16, 1, 0, 0, 0, 0⟩,
   [mkPlayer 1 "QB" (some 10) none, mkPlayer 2 "QB" (some 5) none]⟩

/-- Snapshot whose QB pool contains a player with NULL projected points. -/
def c6db : DB :=
  ⟨some ⟨1, 16, 2, 0, 0, 0, 0⟩,
   [mkPlayer 1 "QB" (some 10) none, mkPlayer 2 "QB" none none]⟩

/-- Settings for the FLEX-need witness: 1 team, 1 RB slot, 2 FLEX slots. -/
def c7settings : DraftSettings := ⟨1, 16, 0, 1, 0, 0, 2⟩

/-- No drafted players: every surplus is 0. -/
def c7dbA : DB :=
  ⟨some c7settings, [mkPlayer 1 "RB" (some 9) none, mkPlayer 2 "RB" (some 8) none]⟩

/-- Two drafted RBs against 1 required: RB surplus is 1. -/
def c7dbB : DB :=
  ⟨some c7settings,
   [mkPlayer 1 "RB" (some 9) (some 1), mkPlayer 2 "RB" (some 8) (some 2)]⟩

/-- Snapshot with two equal-valued QBs: the ranking query does not determine
their relative order. -/
def c8db : DB :=
  ⟨none,
   [mkPlayer 1 "QB" (some 10) none, mkPlayer 2 "QB" (some 10) none,
    mkPlayer 3 "QB" (some 4) none]⟩

/-- One ordering consistent with the ranking query on `c8db`. -/
def c8l1 : List Player :=
  [mkPlayer 1 "QB" (some 10) none, mkPlayer 2 "QB" (some 10) none,
   mkPlayer 3 "QB" (some 4) none]

/-- The other ordering consistent with the ranking query on `c8db`. -/
def c8l2 : List Player :=
  [mkPlayer 2 "QB" (some 10) none, mkPlayer 1 "QB" (some 10) none,
   mkPlayer 3 "QB" (some 4) none]

/-- Pre-existing players table for the import witnesses. -/
def c9dbPlayers : List Player := [mkPlayer 1 "QB" (some 3) none]

/-- A well-formed import header. -/
def c9fieldnames : List String := ["name", "position", "team", "projected_points"]

/-- One valid CSV data row. -/
def c9goodRows : List Row :=
  [[("name", "Alice"), ("position", "rb"), ("team", "kc"),
    ("projected_points", "12.5")]]

/-- Three CSV data rows of which the second and third are invalid. -/
def c9badRows : List Row :=
  [[("name", "Alice"), ("position", "rb"), ("team", "kc"),
    ("projected_points", "12.5")],
   [("name", "Bob"), ("position", "wr"), ("team", "kc"),
    ("projected_points", "abc")],
   [("name", ""), ("position", "qb"), ("team", "kc"),
    ("projected_points", "7")]]

/-- Snapshot containing a kicker: positions outside the four pools are never
scored. -/
def c10db : DB :=
  ⟨some ⟨1, 16, 1, 1, 1, 1, 1⟩,
   [mkPlayer 1 "QB" (some 10) none, mkPlayer 5 "K" (some 99) none]⟩

/-! ## Helper lemmas -/

theorem orOpt_none_left (b : Option ℚ) : orOpt none b = b := rfl

theorem orOpt_assoc (a b c : Option ℚ) :
    orOpt (orOpt a b) c = orOpt a (orOpt b c) := by
  cases a <;> rfl

theorem dictSet_shadow (st : DropMap) (pid : Nat) (w : ℚ) (x : Nat) :
    dictSet st pid w x = orOpt (dictSet emptyMap pid w x) (st x) := by
  by_cases h : x = pid <;> simp [dictSet, emptyMap, h, orOpt]

/-- Each loop iteration of `score_pool` either leaves every store unchanged,
or writes one value (depending only on the pool and the index) at the id of
its player. -/
theorem scoreStep_cases (k : Int) (pool : List Player) (ip : Nat × Player) :
    (∀ st : DropMap, scoreStep k pool st ip = st) ∨
    ∃ w : ℚ, ip.2.projected_points.isSome ∧
      ∀ st : DropMap, scoreStep k pool st ip = dictSet st ip.2.id w := by
  unfold scoreStep
  cases hN : (pySlice pool ((ip.1 : Int) + 1) ((ip.1 : Int) + 1 + k)).isEmpty
  · cases hp : ip.2.projected_points with
    | none => exact Or.inl (fun st => by simp [hN, hp])
    | some v =>
      cases hE : ((pySlice pool ((ip.1 : Int) + 1) ((ip.1 : Int) + 1 + k)).filterMap
          (fun x => x.projected_points)).isEmpty
      · refine Or.inr ⟨v - qmean ((pySlice pool ((ip.1 : Int) + 1)
          ((ip.1 : Int) + 1 + k)).filterMap (fun x => x.projected_points)),
          by simp [hp], fun st => by simp [hN, hp, hE]⟩
      · exact Or.inl (fun st => by simp [hN, hp, hE])
  · exact Or.inl (fun st => by simp [hN])

theorem foldl_scoreStep_shadow (k : Int) (pool : List Player) :
    ∀ (l : List (Nat × Player)) (st : DropMap) (x : Nat),
      l.foldl (scoreStep k pool) st x =
        orOpt (l.foldl (scoreStep k pool) emptyMap x) (st x) := by
  intro l
  induction l with
  | nil => intro st x; rfl
  | cons ip t ih =>
    intro st x
    simp only [List.foldl_cons]
    rcases scoreStep_cases k pool ip with h | ⟨w, _, hw⟩
    · rw [h st, h emptyMap, ih st x]
    · rw [hw st, hw emptyMap, ih (dictSet st ip.2.id w) x,
        ih (dictSet emptyMap ip.2.id w) x, dictSet_shadow, ← orOpt_assoc]

theorem foldl_scoreStep_skip (k : Int) (pool : List Player) (x : Nat) :
    ∀ (l : List (Nat × Player)) (st : DropMap),
      (∀ ip ∈ l, ip.2.id ≠ x ∨ ip.2.projected_points = none) →
      l.foldl (scoreStep k pool) st x = st x := by
  intro l
  induction l with
  | nil => intro st _; rfl
  | cons ip t ih =>
    intro st h
    simp only [List.foldl_cons]
    have hstep : scoreStep k pool st ip x = st x := by
      rcases scoreStep_cases k pool ip with hid | ⟨w, hsome, hw⟩
      · rw [hid st]
      · rcases h ip (by simp) with hne | hnone
        · rw [hw st]
          unfold dictSet
          rw [if_neg (fun he : x = ip.2.id => hne he.symm)]
        · rw [hnone] at hsome; simp at hsome
    have := ih (scoreStep k pool st ip) (fun q hq => h q (by simp [hq]))
    rw [this, hstep]

theorem mem_of_mem_enum {α : Type} {l : List α} {ip : Nat × α}
    (h : ip ∈ l.enum) : ip.2 ∈ l :=
  List.getElem?_mem (List.mem_enum_iff_getElem?.mp h)

/-- During one `score_pool` run, the entry of a key not written stays as the
incoming store has it: players whose id differs, or whose projected points
are NULL, never write. -/
theorem score_pool_skip (k : Int) (pool : List Player) (store : DropMap)
    (x : Nat) (h : ∀ p ∈ pool, p.id ≠ x ∨ p.projected_points = none) :
    score_pool k pool store x = store x :=
  foldl_scoreStep_skip k pool x pool.enum store
    (fun ip hip => h ip.2 (mem_of_mem_enum hip))

/-- `score_pool` over any store agrees with `score_pool` over the empty dict
wherever the latter wrote, and falls back to the incoming store elsewhere. -/
theorem score_pool_shadow (k : Int) (pool : List Player) (store : DropMap)
    (x : Nat) :
    score_pool k pool store x =
      orOpt (score_pool k pool emptyMap x) (store x) :=
  foldl_scoreStep_shadow k pool pool.enum store x

/-- Membership in a ranked pool is exactly membership in the matching rows:
no draft-state or projected-points condition is applied by the query. -/
theorem mem_sorted_pool (db : DB) (whereq : Player → Bool) (p : Player) :
    p ∈ sorted_pool db whereq ↔ p ∈ db.players ∧ whereq p = true := by
  unfold sorted_pool
  rw [(List.perm_insertionSort poolLe _).mem_iff, List.mem_filter]

theorem pySlice_nonneg {α : Type} (l : List α) (a b : Int) (ha : 0 ≤ a)
    (hb : 0 ≤ b) : pySlice l a (a + b) = (l.drop a.toNat).take b.toNat := by
  unfold pySlice pyIdx
  have hn : (0 : Int) ≤ (l.length : Int) := Int.ofNat_nonneg _
  rw [if_neg (by omega), if_neg (by omega)]
  by_cases hcase : (l.length : Int) ≤ a
  · have h1 : max 0 (min a (l.length : Int)) = (l.length : Int) := by omega
    have h2 : max 0 (min (a + b) (l.length : Int)) = (l.length : Int) := by omega
    rw [h1, h2, Nat.sub_self, List.take_zero]
    rw [List.drop_eq_nil_of_le (by omega), List.take_nil]
  · have h1 : max 0 (min a (l.length : Int)) = a := by omega
    rw [h1]
    by_cases hb2 : a + b ≤ (l.length : Int)
    · have h2 : max 0 (min (a + b) (l.length : Int)) = a + b := by omega
      rw [h2]
      congr 1
      omega
    · have h2 : max 0 (min (a + b) (l.length : Int)) = (l.length : Int) := by omega
      rw [h2]
      have hlen : (l.drop a.toNat).length = (l.length : Int).toNat - a.toNat := by
        rw [List.length_drop]
        omega
      rw [show ((l.length : Int).toNat - a.toNat) = (l.drop a.toNat).length from
          hlen.symm,
        List.take_length, List.take_of_length_le (by omega)]

theorem drop_succ_of_drop_cons {α : Type} {l rest : List α} {p : α} {j : Nat}
    (h : l.drop j = p :: rest) : l.drop (j + 1) = rest := by
  have h2 := List.drop_drop 1 j l
  rw [h] at h2
  simpa using h2.symm

theorem scoreStep_eq_stepOne (k : Int) (hk : 0 ≤ k) (pool : List Player)
    (j : Nat) (p : Player) (rest : List Player)
    (hdrop : pool.drop j = p :: rest) (st : DropMap) :
    scoreStep k pool st (j, p) = stepOne k p rest st := by
  have hslice : pySlice pool ((j : Int) + 1) ((j : Int) + 1 + k) =
      rest.take k.toNat := by
    rw [pySlice_nonneg pool ((j : Int) + 1) k (by omega) hk,
      show ((j : Int) + 1).toNat = j + 1 by omega,
      drop_succ_of_drop_cons hdrop]
  unfold scoreStep stepOne
  rw [hslice]

theorem enumFrom_foldl_scoreRec (k : Int) (hk : 0 ≤ k) (pool : List Player) :
    ∀ (l : List Player) (j : Nat) (st : DropMap), pool.drop j = l →
      (l.enumFrom j).foldl (scoreStep k pool) st = scoreRec k l st := by
  intro l
  induction l with
  | nil => intro j st _; rfl
  | cons p rest ih =>
    intro j st hdrop
    rw [List.enumFrom_cons, List.foldl_cons,
      scoreStep_eq_stepOne k hk pool j p rest hdrop st]
    exact ih (j + 1) _ (drop_succ_of_drop_cons hdrop)

/-- For `k ≥ 0` the index-and-slice loop of the source is the structural
recursion `scoreRec`. -/
theorem score_pool_eq_scoreRec (k : Int) (hk : 0 ≤ k) (pool : List Player)
    (store : DropMap) : score_pool k pool store = scoreRec k pool store := by
  unfold score_pool
  rw [show pool.enum = pool.enumFrom 0 from rfl]
  exact enumFrom_foldl_scoreRec k hk pool pool 0 store (by simp)

theorem stepOne_cases (k : Int) (p : Player) (rest : List Player) :
    (∀ st : DropMap, stepOne k p rest st = st) ∨
    ∃ w : ℚ, p.projected_points.isSome ∧
      ∀ st : DropMap, stepOne k p rest st = dictSet st p.id w := by
  unfold stepOne
  cases hN : (rest.take k.toNat).isEmpty
  · cases hp : p.projected_points with
    | none => exact Or.inl (fun st => by simp [hN, hp])
    | some v =>
      cases hE : ((rest.take k.toNat).filterMap (fun x => x.projected_points)).isEmpty
      · exact Or.inr ⟨v - qmean ((rest.take k.toNat).filterMap
            (fun x => x.projected_points)), by simp [hp],
          fun st => by simp [hN, hp, hE]⟩
      · exact Or.inl (fun st => by simp [hN, hp, hE])
  · exact Or.inl (fun st => by simp [hN])

theorem scoreRec_skip (k : Int) (x : Nat) :
    ∀ (l : List Player) (st : DropMap), (∀ q ∈ l, q.id ≠ x) →
      scoreRec k l st x = st x := by
  intro l
  induction l with
  | nil => intro st _; rfl
  | cons p rest ih =>
    intro st h
    show scoreRec k rest (stepOne k p rest st) x = st x
    rw [ih _ (fun q hq => h q (by simp [hq]))]
    rcases stepOne_cases k p rest with hid | ⟨w, _, hw⟩
    · rw [hid st]
    · rw [hw st]
      unfold dictSet
      rw [if_neg (fun he : x = p.id => (h p (by simp)) he.symm)]

theorem filterMap_proj_eq_map (l : List Player)
    (h : ∀ p ∈ l, p.projected_points.isSome) :
    l.filterMap (fun x => x.projected_points) = l.map projQ := by
  induction l with
  | nil => rfl
  | cons p rest ih =>
    have hp := h p (by simp)
    cases hps : p.projected_points with
    | none => rw [hps] at hp; simp at hp
    | some v =>
      simp only [List.filterMap_cons, hps, List.map_cons]
      rw [ih (fun q hq => h q (by simp [hq]))]
      congr 1
      simp [projQ, hps]

theorem stepOne_write (k : Int) (hk : 1 ≤ k) (p : Player) (v : ℚ)
    (hp : p.projected_points = some v) (rest : List Player) (hne : rest ≠ [])
    (hval : ∀ r ∈ rest, r.projected_points.isSome) (st : DropMap) :
    stepOne k p rest st =
      dictSet st p.id (v - qmean ((rest.take k.toNat).map projQ)) := by
  obtain ⟨q, t, rfl⟩ := List.exists_cons_of_ne_nil hne
  have htake : (q :: t).take k.toNat = q :: t.take (k.toNat - 1) := by
    cases hkk : k.toNat with
    | zero => omega
    | succ m => simp
  unfold stepOne
  rw [filterMap_proj_eq_map _ (fun r hr => hval r (List.mem_of_mem_take hr)),
    htake, hp]
  simp

theorem scoreRec_get (k : Int) (hk : 1 ≤ k) :
    ∀ (l : List Player) (store : DropMap),
      (l.map Player.id).Nodup →
      (∀ p ∈ l, p.projected_points.isSome) →
      ∀ (i : Nat) (hi : i < l.length),
      scoreRec k l store ((l.get ⟨i, hi⟩).id) =
        if i + 1 < l.length then
          some (projQ (l.get ⟨i, hi⟩) -
            qmean (((l.drop (i + 1)).take k.toNat).map projQ))
        else store ((l.get ⟨i, hi⟩).id) := by
  intro l
  induction l with
  | nil => intro store _ _ i hi; simp at hi
  | cons p rest ih =>
    intro store hnd hval i hi
    have hndrest : (rest.map Player.id).Nodup := (List.nodup_cons.mp hnd).2
    have hpid : ∀ q ∈ rest, q.id ≠ p.id := by
      intro q hq he
      exact (List.nodup_cons.mp hnd).1 (he ▸ List.mem_map_of_mem Player.id hq)
    have hvalrest : ∀ q ∈ rest, q.projected_points.isSome :=
      fun q hq => hval q (by simp [hq])
    cases i with
    | zero =>
      obtain ⟨v, hv⟩ := Option.isSome_iff_exists.mp (hval p (by simp))
      show scoreRec k rest (stepOne k p rest store) p.id = _
      rw [scoreRec_skip k p.id rest _ hpid]
      by_cases hrest : rest = []
      · subst hrest
        have h0 : stepOne k p [] store = store := by
          unfold stepOne
          simp
        rw [h0, if_neg (by simp)]
        rfl
      · rw [stepOne_write k hk p v hv rest hrest hvalrest store]
        unfold dictSet
        rw [if_pos rfl,
          if_pos (by
            simp only [List.length_cons]
            have := List.length_pos.mpr hrest
            omega)]
        simp [projQ, hv]
    | succ i2 =>
      have hi2 : i2 < rest.length := by
        simp only [List.length_cons] at hi
        omega
      have hget : (p :: rest).get ⟨i2 + 1, hi⟩ = rest.get ⟨i2, hi2⟩ := by
        simp [List.get_eq_getElem]
      have hdropr : List.drop (i2 + 1 + 1) (p :: rest) =
          List.drop (i2 + 1) rest := rfl
      show scoreRec k rest (stepOne k p rest store)
          (((p :: rest).get ⟨i2 + 1, hi⟩).id) = _
      rw [hget, hdropr, ih (stepOne k p rest store) hndrest hvalrest i2 hi2]
      by_cases hlt : i2 + 1 < rest.length
      · rw [if_pos hlt, if_pos (by simp only [List.length_cons]; omega)]
      · rw [if_neg hlt, if_neg (by simp only [List.length_cons]; omega)]
        have hne : (rest.get ⟨i2, hi2⟩).id ≠ p.id :=
          hpid _ (List.get_mem rest _ _)
        rcases stepOne_cases k p rest with hid | ⟨w, _, hw⟩
        · rw [hid store]
        · rw [hw store]
          unfold dictSet
          rw [if_neg hne]

theorem projKey_eq_bot_iff (p : Player) :
    projKey p = ⊥ ↔ p.projected_points = none := by
  unfold projKey
  cases p.projected_points <;> simp

/-- A descending-sorted pool is a block of valued players followed by a block
of NULL-valued players. -/
theorem sorted_split_nones :
    ∀ (l : List Player), l.Sorted poolLe →
      ∃ vs ns, l = vs ++ ns ∧ (∀ p ∈ vs, p.projected_points.isSome) ∧
        (∀ p ∈ ns, p.projected_points = none) := by
  intro l
  induction l with
  | nil => exact fun _ => ⟨[], [], rfl, by simp, by simp⟩
  | cons p t ih =>
    intro hs
    rw [List.sorted_cons] at hs
    obtain ⟨hall, hst⟩ := hs
    cases hp : p.projected_points with
    | some v =>
      obtain ⟨vs, ns, heq, hvs, hns⟩ := ih hst
      refine ⟨p :: vs, ns, by rw [heq]; rfl, ?_, hns⟩
      intro q hq
      rcases List.mem_cons.mp hq with rfl | hq2
      · simp [hp]
      · exact hvs q hq2
    | none =>
      refine ⟨[], p :: t, rfl, by simp, ?_⟩
      intro q hq
      rcases List.mem_cons.mp hq with rfl | hq2
      · exact hp
      · have hle : projKey q ≤ projKey p := hall q hq2
        rw [(projKey_eq_bot_iff p).mpr hp] at hle
        exact (projKey_eq_bot_iff q).mp (le_bot_iff.mp hle)

theorem stepOne_append_nones (k : Int) (p : Player) (vs ns : List Player)
    (hns : ∀ q ∈ ns, q.projected_points = none) (st : DropMap) :
    stepOne k p (vs ++ ns) st = stepOne k p vs st := by
  have hfm : ((vs ++ ns).take k.toNat).filterMap (fun x => x.projected_points) =
      (vs.take k.toNat).filterMap (fun x => x.projected_points) := by
    rw [List.take_append_eq_append_take, List.filterMap_append]
    have hnil : (ns.take (k.toNat - vs.length)).filterMap
        (fun x => x.projected_points) = [] := by
      rw [List.filterMap_eq_nil_iff]
      exact fun q hq => hns q (List.mem_of_mem_take hq)
    rw [hnil, List.append_nil]
  unfold stepOne
  rw [hfm]
  by_cases hE : (vs ++ ns).take k.toNat = []
  · have hE2 : vs.take k.toNat = [] := by
      rcases List.take_eq_nil_iff.mp hE with h | h
      · simp [h]
      · have hvs : vs = [] := by
          cases vs
          · rfl
          · simp at h
        simp [hvs]
    simp [hE, hE2]
  · by_cases hE2 : vs.take k.toNat = []
    · have hfm2 : (vs.take k.toNat).filterMap
          (fun x => x.projected_points) = [] := by
        rw [hE2]
        rfl
      cases hp : p.projected_points with
      | none => simp [hE, hE2, hp]
      | some v => simp [hE, hE2, hp, hfm2]
    · simp [hE, hE2]

theorem stepOne_proj_none (k : Int) (p : Player) (rest : List Player)
    (hp : p.projected_points = none) (st : DropMap) :
    stepOne k p rest st = st := by
  unfold stepOne
  rw [hp]
  cases h : (rest.take k.toNat).isEmpty <;> simp

theorem scoreRec_all_nones (k : Int) :
    ∀ (l : List Player) (st : DropMap),
      (∀ q ∈ l, q.projected_points = none) → scoreRec k l st = st := by
  intro l
  induction l with
  | nil => intro st _; rfl
  | cons p rest ih =>
    intro st h
    show scoreRec k rest (stepOne k p rest st) = st
    rw [stepOne_proj_none k p rest (h p (by simp)) st,
      ih st (fun q hq => h q (by simp [hq]))]

theorem scoreRec_append_nones (k : Int) :
    ∀ (vs ns : List Player) (st : DropMap),
      (∀ q ∈ ns, q.projected_points = none) →
      scoreRec k (vs ++ ns) st = scoreRec k vs st := by
  intro vs
  induction vs with
  | nil => intro ns st h; simpa using scoreRec_all_nones k ns st h
  | cons p vs2 ih =>
    intro ns st h
    show scoreRec k (vs2 ++ ns) (stepOne k p (vs2 ++ ns) st) =
      scoreRec k vs2 (stepOne k p vs2 st)
    rw [stepOne_append_nones k p vs2 ns h st, ih ns _ h]

/-- NULL-valued players sit at the tail of every ranked pool and are dropped
from every mean, so removing them from the pool changes nothing in the
resulting store. -/
theorem score_pool_filter_valued (k : Int) (hk : 0 ≤ k) (db : DB)
    (whereq : Player → Bool) (store : DropMap) :
    score_pool k (sorted_pool db whereq) store =
      score_pool k ((sorted_pool db whereq).filter
        (fun p => p.projected_points.isSome)) store := by
  obtain ⟨vs, ns, heq, hvs, hns⟩ :=
    sorted_split_nones (sorted_pool db whereq)
      (List.sorted_insertionSort poolLe _)
  have hfilter : (sorted_pool db whereq).filter
      (fun p => p.projected_points.isSome) = vs := by
    rw [heq, List.filter_append,
      List.filter_eq_self.mpr (fun a ha => hvs a ha),
      List.filter_eq_nil.mpr (fun a ha => by simp [hns a ha]),
      List.append_nil]
  rw [hfilter, heq, score_pool_eq_scoreRec k hk, score_pool_eq_scoreRec k hk,
    scoreRec_append_nones k vs ns store hns]

/-! ### listMax and pick-number lemmas -/

theorem listMax_eq_none_iff (l : List Int) : listMax l = none ↔ l = [] := by
  cases l with
  | nil => simp [listMax]
  | cons x xs =>
    simp only [listMax]
    cases listMax xs <;> simp

theorem listMax_spec : ∀ (l : List Int) (m : Int), listMax l = some m →
    m ∈ l ∧ ∀ x ∈ l, x ≤ m := by
  intro l
  induction l with
  | nil => intro m h; simp [listMax] at h
  | cons a xs ih =>
    intro m h
    simp only [listMax] at h
    cases hx : listMax xs with
    | none =>
      rw [hx] at h
      obtain rfl : a = m := by simpa using h
      refine ⟨by simp, ?_⟩
      intro x hx2
      rcases List.mem_cons.mp hx2 with rfl | hmem
      · exact le_refl x
      · rw [(listMax_eq_none_iff xs).mp hx] at hmem
        simp at hmem
    | some m2 =>
      rw [hx] at h
      obtain rfl : max a m2 = m := by simpa using h
      obtain ⟨hmem2, hle2⟩ := ih m2 hx
      constructor
      · rcases le_total a m2 with hle | hle
        · rw [max_eq_right hle]
          exact List.mem_cons_of_mem a hmem2
        · rw [max_eq_left hle]
          simp
      · intro x hx2
        rcases List.mem_cons.mp hx2 with rfl | hmem
        · exact le_max_left x m2
        · exact le_trans (hle2 x hmem) (le_max_right a m2)

theorem max_pick_bound (players : List Player) (q : Player) (hq : q ∈ players)
    (x : Int) (hx : q.actual_pick_number = some x) :
    x ≤ max_pick_or0 players := by
  have hmem : x ∈ players.filterMap (fun p => p.actual_pick_number) :=
    List.mem_filterMap.mpr ⟨q, hq, hx⟩
  unfold max_pick_or0
  cases h : listMax (players.filterMap fun p => p.actual_pick_number) with
  | none =>
    rw [(listMax_eq_none_iff _).mp h] at hmem
    simp at hmem
  | some m => exact (listMax_spec _ m h).2 x hmem

theorem mem_pickRange_bounds (j : Nat) (x : Int) (h : x ∈ pickRange j) :
    1 ≤ x ∧ x ≤ (j : Int) := by
  unfold pickRange at h
  rcases List.mem_map.mp h with ⟨i, hi, hx⟩
  have h2 : i < j := List.mem_range.mp hi
  omega

theorem self_mem_pickRange (j : Nat) (hj : 0 < j) : (j : Int) ∈ pickRange j := by
  unfold pickRange
  refine List.mem_map.mpr ⟨j - 1, List.mem_range.mpr (by omega), ?_⟩
  show ((j - 1 : Nat) : Int) + 1 = (j : Int)
  omega

theorem max_pick_perm_range (players : List Player) (j : Nat)
    (hperm : (assigned_picks players).Perm (pickRange j)) :
    max_pick_or0 players = j := by
  unfold assigned_picks at hperm
  cases hj : j with
  | zero =>
    subst hj
    have hr0 : pickRange 0 = [] := rfl
    rw [hr0] at hperm
    have hnil : players.filterMap (fun p => p.actual_pick_number) = [] :=
      hperm.eq_nil
    unfold max_pick_or0
    rw [(listMax_eq_none_iff _).mpr hnil]
    rfl
  | succ j2 =>
    subst hj
    have hne : players.filterMap (fun p => p.actual_pick_number) ≠ [] := by
      intro hcon
      rw [hcon] at hperm
      have h2 : pickRange (j2 + 1) = [] := hperm.symm.eq_nil
      have h3 := self_mem_pickRange (j2 + 1) (by omega)
      rw [h2] at h3
      simp at h3
    cases hm : listMax (players.filterMap fun p => p.actual_pick_number) with
    | none => exact absurd ((listMax_eq_none_iff _).mp hm) hne
    | some m =>
      obtain ⟨hmem, hbnd⟩ := listMax_spec _ m hm
      have h1 : m ≤ ((j2 + 1 : Nat) : Int) :=
        (mem_pickRange_bounds _ m (hperm.mem_iff.mp hmem)).2
      have h2 : ((j2 + 1 : Nat) : Int) ≤ m :=
        hbnd _ (hperm.mem_iff.mpr (self_mem_pickRange (j2 + 1) (by omega)))
      unfold max_pick_or0
      rw [hm]
      show m = ((j2 + 1 : Nat) : Int)
      omega

/-! ### updatePlayer and toggle lemmas -/

theorem nodup_ids_split (l1 l2 : List Player) (p : Player)
    (hnd : ((l1 ++ p :: l2).map Player.id).Nodup) :
    ∀ q ∈ l1 ++ l2, q.id ≠ p.id := by
  rw [List.map_append, List.map_cons] at hnd
  rw [List.nodup_append] at hnd
  obtain ⟨h1, h2, hdis⟩ := hnd
  intro q hq he
  rcases List.mem_append.mp hq with hmem | hmem
  · exact hdis (he ▸ List.mem_map_of_mem Player.id hmem) (by simp)
  · exact (List.nodup_cons.mp h2).1 (he ▸ List.mem_map_of_mem Player.id hmem)

theorem updatePlayer_split (l1 l2 : List Player) (p : Player) (f : Player → Player)
    (hne : ∀ q ∈ l1 ++ l2, q.id ≠ p.id) :
    updatePlayer (l1 ++ p :: l2) p.id f = l1 ++ f p :: l2 := by
  unfold updatePlayer
  rw [List.map_append, List.map_cons]
  congr 1
  · conv_rhs => rw [← List.map_id l1]
    apply List.map_congr_left
    intro a ha
    rw [if_neg (by simp [hne a (List.mem_append.mpr (Or.inl ha))])]
    rfl
  · congr 1
    · rw [if_pos (by simp)]
    · conv_rhs => rw [← List.map_id l2]
      apply List.map_congr_left
      intro a ha
      rw [if_neg (by simp [hne a (List.mem_append.mpr (Or.inr ha))])]
      rfl

theorem find?_id_unique :
    ∀ (players : List Player), (players.map Player.id).Nodup →
      ∀ p ∈ players, players.find? (fun q => q.id == p.id) = some p := by
  intro players
  induction players with
  | nil => intro _ p hp; simp at hp
  | cons a rest ih =>
    intro hnd p hp
    rcases List.mem_cons.mp hp with rfl | hmem
    · rw [List.find?_cons_of_pos _ (by simp)]
    · rw [List.find?_cons_of_neg]
      · exact ih (List.nodup_cons.mp (by simpa using hnd)).2 p hmem
      · simp only [beq_iff_eq]
        intro he
        exact (List.nodup_cons.mp (by simpa using hnd)).1
          (he ▸ List.mem_map_of_mem Player.id hmem)

theorem toggle_drafted_draft (players : List Player) (p : Player)
    (hmem : p ∈ players) (hnd : (players.map Player.id).Nodup)
    (hp : p.actual_pick_number = none) :
    toggle_drafted players p.id = some (updatePlayer players p.id
      (fun q =>
        { q with actual_pick_number := some (max_pick_or0 players + 1) })) := by
  unfold toggle_drafted
  rw [find?_id_unique players hnd p hmem]
  simp only [hp]

theorem toggle_drafted_undraft (players : List Player) (p : Player)
    (hmem : p ∈ players) (hnd : (players.map Player.id).Nodup)
    (m : Int) (hp : p.actual_pick_number = some m) :
    toggle_drafted players p.id = some (updatePlayer players p.id
      (fun q => { q with actual_pick_number := none })) := by
  unfold toggle_drafted
  rw [find?_id_unique players hnd p hmem]
  simp only [hp]

theorem updatePlayer_map_id (players : List Player) (pid : Nat)
    (f : Player → Player) (hf : ∀ q, (f q).id = q.id) :
    (updatePlayer players pid f).map Player.id = players.map Player.id := by
  unfold updatePlayer
  rw [List.map_map]
  apply List.map_congr_left
  intro a _
  simp only [Function.comp_apply]
  by_cases h : (a.id == pid) = true
  · rw [if_pos h]
    exact hf a
  · rw [if_neg h]

theorem assigned_picks_append (l1 l2 : List Player) :
    assigned_picks (l1 ++ l2) = assigned_picks l1 ++ assigned_picks l2 := by
  unfold assigned_picks
  rw [List.filterMap_append]

/-- One "draft" toggle from a state whose picks are exactly `1..j`: the
player gets pick `j + 1` and the invariants carry over. -/
theorem toggle_run :
    ∀ (pids : List Nat) (players : List Player) (j : Nat),
      (players.map Player.id).Nodup →
      pids.Nodup →
      (∀ pid ∈ pids, ∃ p ∈ players, p.id = pid ∧ p.actual_pick_number = none) →
      (assigned_picks players).Perm (pickRange j) →
      ∃ final, toggle_sequence players pids = some final ∧
        (assigned_picks final).Perm (pickRange (j + pids.length)) := by
  intro pids
  induction pids with
  | nil =>
    intro players j hnd _ _ hperm
    exact ⟨players, rfl, by simpa using hperm⟩
  | cons pid rest ih =>
    intro players j hnd hpidsnd hex hperm
    obtain ⟨p, hpmem, hpid, hpnone⟩ := hex pid (by simp)
    subst hpid
    have hmax : max_pick_or0 players = j := max_pick_perm_range players j hperm
    obtain ⟨l1, l2, hsplit⟩ := List.append_of_mem hpmem
    have hne : ∀ q ∈ l1 ++ l2, q.id ≠ p.id :=
      nodup_ids_split l1 l2 p (hsplit ▸ hnd)
    have htog := toggle_drafted_draft players p hpmem hnd hpnone
    rw [hmax] at htog
    have hupd : updatePlayer players p.id
        (fun q => { q with actual_pick_number := some ((j : Int) + 1) }) =
        l1 ++ { p with actual_pick_number := some ((j : Int) + 1) } :: l2 := by
      rw [hsplit]
      exact updatePlayer_split l1 l2 p _ hne
    set p2 : Player := { p with actual_pick_number := some ((j : Int) + 1) }
    set players2 : List Player := l1 ++ p2 :: l2
    have hids2 : players2.map Player.id = players.map Player.id := by
      show (l1 ++ p2 :: l2).map Player.id = players.map Player.id
      rw [hsplit]
      simp [p2]
    have hperm2 : (assigned_picks players2).Perm (pickRange (j + 1)) := by
      have hp2 : assigned_picks players2 =
          assigned_picks l1 ++ ((j : Int) + 1) :: assigned_picks l2 :=
        assigned_picks_append l1 (p2 :: l2)
      have hpold : assigned_picks players =
          assigned_picks l1 ++ assigned_picks l2 := by
        rw [hsplit, assigned_picks_append]
        congr 1
        unfold assigned_picks
        rw [List.filterMap_cons]
        simp [hpnone]
      have hstep : (assigned_picks players2).Perm
          (((j : Int) + 1) :: assigned_picks players) := by
        rw [hp2, hpold]
        exact (List.perm_middle)
      have hrange : pickRange (j + 1) = pickRange j ++ [(j : Int) + 1] := by
        unfold pickRange
        rw [List.range_succ, List.map_append]
        rfl
      refine hstep.trans ?_
      rw [hrange]
      exact ((hperm.cons _).trans (List.perm_append_singleton _ _).symm)
    have hex2 : ∀ pid2 ∈ rest, ∃ q ∈ players2, q.id = pid2 ∧
        q.actual_pick_number = none := by
      intro pid2 hpid2
      obtain ⟨q, hqmem, hqid, hqnone⟩ := hex pid2 (by simp [hpid2])
      have hqne : q.id ≠ p.id := by
        rw [hqid]
        intro he
        exact (List.nodup_cons.mp hpidsnd).1 (he ▸ hpid2)
      have hqmem2 : q ∈ players2 := by
        rw [hsplit] at hqmem
        rcases List.mem_append.mp hqmem with hm | hm
        · exact List.mem_append.mpr (Or.inl hm)
        · rcases List.mem_cons.mp hm with rfl | hm2
          · exact absurd rfl hqne
          · exact List.mem_append.mpr (Or.inr (List.mem_cons_of_mem _ hm2))
      exact ⟨q, hqmem2, hqid, hqnone⟩
    obtain ⟨final, hseq, hpermf⟩ := ih players2 (j + 1)
      (by rw [hids2]; exact hnd) (List.nodup_cons.mp hpidsnd).2 hex2 hperm2
    refine ⟨final, ?_, ?_⟩
    · show (match toggle_drafted players p.id with
        | none => none
        | some players3 => toggle_sequence players3 rest) = some final
      rw [htog, hupd]
      exact hseq
    · have harith : j + 1 + rest.length = j + (rest.length + 1) := by omega
      rw [harith] at hpermf
      simpa using hpermf

/-! ### Helpers for whole-invocation properties of compute_vorp_drop -/

theorem ite_score_pool_none (c : Prop) [Decidable c] (k : Int)
    (pool : List Player) (st : DropMap) (x : Nat) (hst : st x = none)
    (hpool : ∀ q ∈ pool, q.id ≠ x ∨ q.projected_points = none) :
    (if c then score_pool k pool st else st) x = none := by
  split
  · rw [score_pool_skip k pool st x hpool]
    exact hst
  · exact hst

/-- A key can only be written by a pool whose filter its player matches; a
player whose projected points are NULL, or whose position is outside the four
scored position families, never gets an entry. -/
theorem compute_vorp_drop_skip (db : DB) (k : Int) (x : Nat)
    (h : ∀ q ∈ db.players, q.id = x →
      q.projected_points = none ∨
        q.position ∉ (["QB", "RB", "WR", "TE"] : List String)) :
    compute_vorp_drop db k x = none := by
  have hpool : ∀ (whereq : Player → Bool),
      (∀ q, whereq q = true → q.position ∈ (["QB", "RB", "WR", "TE"] : List String)) →
      ∀ q ∈ sorted_pool db whereq, q.id ≠ x ∨ q.projected_points = none := by
    intro whereq hw q hq
    obtain ⟨hqmem, hqw⟩ := (mem_sorted_pool db whereq q).mp hq
    by_cases he : q.id = x
    · rcases h q hqmem he with hnone | hpos
      · exact Or.inr hnone
      · exact absurd (hw q hqw) hpos
    · exact Or.inl he
  unfold compute_vorp_drop
  cases hset : db.settings with
  | none => rfl
  | some s =>
    apply ite_score_pool_none
    · apply ite_score_pool_none
      · apply ite_score_pool_none
        · apply ite_score_pool_none
          · apply ite_score_pool_none
            · rfl
            · exact hpool _ (fun q hq => by
                simp only [beq_iff_eq] at hq
                simp [hq])
          · exact hpool _ (fun q hq => by
              simp only [beq_iff_eq] at hq
              simp [hq])
        · exact hpool _ (fun q hq => by
            simp only [beq_iff_eq] at hq
            simp [hq])
      · exact hpool _ (fun q hq => by
          simp only [beq_iff_eq] at hq
          simp [hq])
    · refine hpool flexWhere (fun q hq => ?_)
      unfold flexWhere flex_eligible_positions at hq
      have hmem := List.elem_iff.mp hq
      simp only [List.mem_cons, List.not_mem_nil, or_false] at hmem
      rcases hmem with h1 | h1 | h1 <;> simp [h1]

theorem foldl_fixed_of {α β : Type} (f : β → α → β) (b : β)
    (hf : ∀ x, f b x = b) : ∀ l : List α, l.foldl f b = b := by
  intro l
  induction l with
  | nil => rfl
  | cons a t ih =>
    rw [List.foldl_cons, hf a]
    exact ih

theorem pySlice_self {α : Type} (l : List α) (a : Int) : pySlice l a a = [] := by
  unfold pySlice
  rw [Nat.sub_self, List.take_zero]

theorem scoreStep_zero (pool : List Player) (st : DropMap) (ip : Nat × Player) :
    scoreStep 0 pool st ip = st := by
  unfold scoreStep
  rw [show ((ip.1 : Int) + 1 + 0) = (ip.1 : Int) + 1 by ring, pySlice_self]
  rfl

/-- With `k = 0` every slice `pool[i+1 : i+1]` is empty, so nothing is ever
written. -/
theorem score_pool_zero (pool : List Player) (store : DropMap) :
    score_pool 0 pool store = store :=
  foldl_fixed_of _ store (fun ip => scoreStep_zero pool store ip) pool.enum

/-- `compute_vorp_drop` at `k = 0` silently produces the empty mapping. -/
theorem compute_vorp_drop_zero (db : DB) (x : Nat) :
    compute_vorp_drop db 0 x = none := by
  unfold compute_vorp_drop
  cases hset : db.settings with
  | none => rfl
  | some s =>
    simp only [score_pool_zero, ite_self]
    rfl

/-! ### Helpers for the bulk import -/

theorem import_foldl_split (fieldnames headers_lower : List String) :
    ∀ (l : List (Nat × Row)) (acc1 : List NewPlayer) (acc2 : List RowError),
      l.foldl
        (fun (acc : List NewPlayer × List RowError) (ir : Nat × Row) =>
          match parse_row fieldnames headers_lower ir.2 with
          | .ok pl => (acc.1 ++ [pl], acc.2)
          | .error e => (acc.1, acc.2 ++ [⟨ir.1 + 2, e⟩]))
        (acc1, acc2) =
      (acc1 ++ l.filterMap (rowOutcome fieldnames headers_lower),
       acc2 ++ l.filterMap (rowFailure fieldnames headers_lower)) := by
  intro l
  induction l with
  | nil => intro acc1 acc2; simp
  | cons ir t ih =>
    intro acc1 acc2
    rw [List.foldl_cons]
    cases hrow : parse_row fieldnames headers_lower ir.2 with
    | ok pl =>
      simp only [hrow]
      rw [ih]
      have h1 : rowOutcome fieldnames headers_lower ir = some pl := by
        unfold rowOutcome
        rw [hrow]
        rfl
      have h2 : rowFailure fieldnames headers_lower ir = none := by
        unfold rowFailure
        rw [hrow]
      rw [List.filterMap_cons, h1, List.filterMap_cons, h2]
      simp
    | error e =>
      simp only [hrow]
      rw [ih]
      have h1 : rowOutcome fieldnames headers_lower ir = none := by
        unfold rowOutcome
        rw [hrow]
        rfl
      have h2 : rowFailure fieldnames headers_lower ir =
          some ⟨ir.1 + 2, e⟩ := by
        unfold rowFailure
        rw [hrow]
      rw [List.filterMap_cons, h1, List.filterMap_cons, h2]
      simp

theorem length_filterMap_all_ok (fieldnames headers_lower : List String) :
    ∀ (l : List (Nat × Row)),
      (∀ ir ∈ l, rowFailure fieldnames headers_lower ir = none) →
      (l.filterMap (rowOutcome fieldnames headers_lower)).length = l.length := by
  intro l
  induction l with
  | nil => intro _; rfl
  | cons ir t ih =>
    intro h
    have hir := h ir (by simp)
    unfold rowFailure at hir
    cases hrow : parse_row fieldnames headers_lower ir.2 with
    | error e => rw [hrow] at hir; simp at hir
    | ok pl =>
      have h1 : rowOutcome fieldnames headers_lower ir = some pl := by
        unfold rowOutcome
        rw [hrow]
        rfl
      rw [List.filterMap_cons, h1, List.length_cons,
        ih (fun q hq => h q (by simp [hq]))]
      rfl

theorem mem_updatePlayer_of_ne (players : List Player) (pid : Nat)
    (f : Player → Player) (q : Player) (hq : q ∈ players) (hne : q.id ≠ pid) :
    q ∈ updatePlayer players pid f := by
  unfold updatePlayer
  refine List.mem_map.mpr ⟨q, hq, ?_⟩
  exact if_neg (by simp [hne])

theorem all_none_assigned_picks_nil (players : List Player)
    (h : ∀ p ∈ players, p.actual_pick_number = none) :
    assigned_picks players = [] := by
  unfold assigned_picks
  rw [List.filterMap_eq_nil_iff]
  exact h

/-! ## Claim theorems -/

/-- Claim C1: for every ranked pool (all projected values defined, distinct
ids) and every k ≥ 1, the drop score of the player at rank i is value(i)
minus the mean of the values of the next min(k, pool_size − i − 1) players
(the stated window length is part of the conclusion); when fewer than k
successors remain the mean is over however many remain, and the last player
of the pool never receives an entry. -/
theorem c1_drop_score_formula (k : Int) (pool : List Player)
    (hk : 1 ≤ k)
    (hval : ∀ p ∈ pool, p.projected_points.isSome)
    (hnd : (pool.map Player.id).Nodup) :
    (∀ (i : Nat) (hi : i + 1 < pool.length),
      score_pool k pool emptyMap ((pool.get ⟨i, Nat.lt_of_succ_lt hi⟩).id) =
        some (projQ (pool.get ⟨i, Nat.lt_of_succ_lt hi⟩) -
          qmean (((pool.drop (i + 1)).take k.toNat).map projQ)) ∧
      (((pool.drop (i + 1)).take k.toNat).map projQ).length =
        min k.toNat (pool.length - (i + 1))) ∧
    (∀ (hne : pool ≠ []),
      score_pool k pool emptyMap ((pool.getLast hne).id) = none) := by
  constructor
  · intro i hi
    rw [score_pool_eq_scoreRec k (by omega) pool emptyMap]
    constructor
    · rw [scoreRec_get k hk pool emptyMap hnd hval i (Nat.lt_of_succ_lt hi),
        if_pos hi]
    · rw [List.length_map, List.length_take, List.length_drop]
  · intro hne
    rw [score_pool_eq_scoreRec k (by omega) pool emptyMap]
    have hlen : pool.length - 1 < pool.length := by
      cases pool
      · exact absurd rfl hne
      · simp
    have hgl : pool.getLast hne = pool.get ⟨pool.length - 1, hlen⟩ :=
      List.getLast_eq_get pool hne
    rw [hgl, scoreRec_get k hk pool emptyMap hnd hval _ hlen,
      if_neg (by omega)]
    rfl

/-- Witness for C1: the spec scenario pool `[30, 28, 25, 22, 20, 18]` with
K = 3; the top player's drop is 30 − mean(28, 25, 22) = 5. -/
theorem c1_drop_score_formula_witness :
    score_pool 3 c1pool emptyMap 1 = some 5 := by
  have h := ((c1_drop_score_formula 3 c1pool (by decide) (by decide)
    (by decide)).1 0 (by decide)).1
  simp only [c1pool, mkPlayer] at h ⊢
  rw [show ((3 : Int).toNat) = 3 from rfl] at h
  norm_num [projQ, qmean] at h
  exact h

/-- Claim C2 counterexample: `compute_vorp_drop` scores drafted players too:
in `c2db` the player with id 1 is drafted (pick 1), sits in the QB pool, and
receives an entry in the returned mapping. -/
theorem c2_drafted_scored_counterexample :
    (mkPlayer 1 "QB" (some 10) (some 1)) ∈ c2db.players ∧
    (mkPlayer 1 "QB" (some 10) (some 1)).actual_pick_number = some 1 ∧
    compute_vorp_drop c2db 6 1 = some 5 := by
  refine ⟨by decide, rfl, ?_⟩
  simp +decide only [compute_vorp_drop, c2db, mkPlayer, need_qb, need_rb,
    need_wr, need_te, need_flex, total_needed_qb, total_needed_rb,
    total_needed_wr, total_needed_te, total_needed_flex, count_drafted,
    surplus_qb, surplus_rb, surplus_wr, flex_eligible_positions,
    score_pool_eq_scoreRec, sorted_pool, List.insertionSort,
    List.orderedInsert, List.filter, scoreRec, stepOne, dictSet, emptyMap,
    qmean, List.take, List.filterMap, List.isEmpty, List.sum_cons,
    List.sum_nil, List.length, List.map]
  norm_num [dictSet, emptyMap]

/-- Claim C2 (amended): the ranked pools contain every player whose position
matches the pool's filter, regardless of draft state — the code applies no
undrafted condition, so drafted players are ranked and scored too (see the
counterexample). -/
theorem c2_pools_ignore_draft_state (db : DB) (pos : String) (p : Player) :
    (p ∈ sorted_pool db (fun q => q.position == pos) ↔
      p ∈ db.players ∧ p.position = pos) ∧
    (p ∈ sorted_pool db flexWhere ↔
      p ∈ db.players ∧ p.position ∈ flex_eligible_positions) := by
  constructor
  · rw [mem_sorted_pool]
    simp
  · rw [mem_sorted_pool]
    unfold flexWhere
    simp [List.elem_iff]

/-- Claim C3: when a player is scored both in its own position pool and in
the FLEX pool, the value in the final mapping is the FLEX-pool score: the
FLEX pool is scored last into the same dict, overwriting by id. -/
theorem c3_flex_overwrites (db : DB) (s : DraftSettings) (k : Int)
    (pos : String) (p : Player) (vP vF : ℚ)
    (hset : db.settings = some s)
    (hpos : pos ∈ (["QB", "RB", "WR", "TE"] : List String))
    (hneed : need_pos db s pos > 0)
    (hP : score_pool k (sorted_pool db (fun q => q.position == pos)) emptyMap
      p.id = some vP)
    (hflex : need_flex db s > 0)
    (hF : score_pool k (sorted_pool db flexWhere) emptyMap p.id = some vF) :
    compute_vorp_drop db k p.id = some vF := by
  unfold compute_vorp_drop
  simp only [hset]
  rw [if_pos (by simp [hflex, flex_eligible_positions])]
  rw [score_pool_shadow, hF]
  rfl

/-- Witness for C3: in `c3db`, player 1 scores 2 in the RB pool and 1 in the
FLEX pool (the QB with value 9 sits between the top RBs); the final map holds
the FLEX value 1. -/
theorem c3_flex_overwrites_witness :
    compute_vorp_drop c3db 1 1 = some 1 := by
  have hP : score_pool 1 (sorted_pool c3db (fun q => q.position == "RB"))
      emptyMap 1 = some 2 := by
    simp +decide only [c3db, mkPlayer, score_pool_eq_scoreRec, sorted_pool,
      List.insertionSort, List.orderedInsert, List.filter, scoreRec, stepOne,
      dictSet, emptyMap, qmean, List.take, List.filterMap, List.isEmpty,
      List.sum_cons, List.sum_nil, List.length, List.map]
    norm_num [dictSet, emptyMap]
  have hF : score_pool 1 (sorted_pool c3db flexWhere) emptyMap 1 = some 1 := by
    simp +decide only [c3db, mkPlayer, score_pool_eq_scoreRec, sorted_pool,
      flexWhere, flex_eligible_positions, List.insertionSort,
      List.orderedInsert, List.filter, scoreRec, stepOne, dictSet, emptyMap,
      qmean, List.take, List.filterMap, List.isEmpty, List.sum_cons,
      List.sum_nil, List.length, List.map]
    norm_num [dictSet, emptyMap]
  exact c3_flex_overwrites c3db ⟨1, 16, 0, 1, 0, 0, 1⟩ 1 "RB"
    (mkPlayer 1 "RB" (some 10) none) 2 1 rfl (by decide) (by decide) hP
    (by decide) hF

/-- Claim C4 counterexample: drafting players 1 and 2 (picks 1, 2), then
undrafting player 2 (clearing pick 2), then drafting player 3 assigns
`max + 1 = 2` — exactly the number just cleared. -/
theorem c4_reuse_counterexample :
    toggle_sequence c4players [1, 2] =
      some [mkPlayer 1 "RB" (some 3) (some 1),
        mkPlayer 2 "RB" (some 2) (some 2), mkPlayer 3 "RB" (some 1) none] ∧
    toggle_sequence c4players [1, 2, 2, 3] =
      some [mkPlayer 1 "RB" (some 3) (some 1),
        mkPlayer 2 "RB" (some 2) none,
        mkPlayer 3 "RB" (some 1) (some 2)] := by
  constructor <;> decide

/-- Claim C4 (amended): starting with no picks assigned, N draft toggles on
distinct existing players assign exactly the picks 1..N; and after an
undraft followed by a draft of a different player, the new pick is
`max(currently assigned, or 0) + 1` — never colliding with a currently
assigned number, though it can equal the just-cleared one (see the
counterexample). -/
theorem c4_pick_assignment_amended :
    (∀ (players : List Player) (pids : List Nat),
      (players.map Player.id).Nodup →
      pids.Nodup →
      (∀ p ∈ players, p.actual_pick_number = none) →
      (∀ pid ∈ pids, ∃ p ∈ players, p.id = pid) →
      ∃ final, toggle_sequence players pids = some final ∧
        (assigned_picks final).Perm (pickRange pids.length)) ∧
    (∀ (players : List Player) (p2 : Player) (pid1 : Nat) (m : Int),
      (players.map Player.id).Nodup →
      p2 ∈ players →
      p2.id ≠ pid1 →
      (∃ p ∈ players, p.id = pid1 ∧ p.actual_pick_number = some m) →
      p2.actual_pick_number = none →
      ∃ mid final, toggle_drafted players pid1 = some mid ∧
        toggle_drafted mid p2.id = some final ∧
        (∀ q ∈ final, q.id = p2.id →
          q.actual_pick_number = some (max_pick_or0 mid + 1)) ∧
        (∀ q ∈ mid, ∀ x : Int, q.actual_pick_number = some x →
          x < max_pick_or0 mid + 1)) := by
  constructor
  · intro players pids hnd hpids hnone hex
    have hperm0 : (assigned_picks players).Perm (pickRange 0) := by
      rw [all_none_assigned_picks_nil players hnone]
      exact List.Perm.refl _
    obtain ⟨final, hseq, hperm⟩ := toggle_run pids players 0 hnd hpids
      (fun pid hpid => by
        obtain ⟨p, hp, hpid2⟩ := hex pid hpid
        exact ⟨p, hp, hpid2, hnone p hp⟩) hperm0
    exact ⟨final, hseq, by simpa using hperm⟩
  · intro players p2 pid1 m hnd hp2mem hne hex1 hp2none
    obtain ⟨p1, hp1mem, hp1id, hp1pick⟩ := hex1
    subst hp1id
    have htog1 := toggle_drafted_undraft players p1 hp1mem hnd m hp1pick
    set mid : List Player :=
      updatePlayer players p1.id (fun q => { q with actual_pick_number := none })
    have hidsmid : mid.map Player.id = players.map Player.id :=
      updatePlayer_map_id players p1.id _ (fun q => rfl)
    have hndmid : (mid.map Player.id).Nodup := by
      rw [hidsmid]
      exact hnd
    have hp2mid : p2 ∈ mid :=
      mem_updatePlayer_of_ne players p1.id _ p2 hp2mem hne
    have htog2 := toggle_drafted_draft mid p2 hp2mid hndmid hp2none
    refine ⟨mid, _, htog1, htog2, ?_, ?_⟩
    · intro q hq hqid
      obtain ⟨r, hrmem, hreq⟩ := List.mem_map.mp hq
      by_cases hr : (r.id == p2.id) = true
      · rw [if_pos hr] at hreq
        rw [← hreq]
      · rw [if_neg hr] at hreq
        subst hreq
        exact absurd (by simpa using hqid) hr
    · intro q hq x hx
      have := max_pick_bound mid q hq x hx
      omega

/-- Witness for C4: two drafts on `c4players` assign picks that are a
permutation of 1..2; and in `c4players2` (picks 1 and 2 held, player 3
undrafted), undrafting player 2 then drafting player 3 gives player 3 the
pick `max_pick_or0 mid + 1`, distinct from every pick still assigned. -/
theorem c4_pick_assignment_amended_witness :
    (∃ final, toggle_sequence c4players [1, 2] = some final ∧
      (assigned_picks final).Perm (pickRange 2)) ∧
    (∃ mid final, toggle_drafted c4players2 2 = some mid ∧
      toggle_drafted mid 3 = some final ∧
      (∀ q ∈ final, q.id = 3 →
        q.actual_pick_number = some (max_pick_or0 mid + 1)) ∧
      (∀ q ∈ mid, ∀ x : Int, q.actual_pick_number = some x →
        x < max_pick_or0 mid + 1)) :=
  ⟨c4_pick_assignment_amended.1 c4players [1, 2] (by decide) (by decide)
      (by decide) (by decide),
   c4_pick_assignment_amended.2 c4players2 (mkPlayer 3 "RB" (some 1) none) 2 2
      (by decide) (by decide) (by decide)
      ⟨mkPlayer 2 "RB" (some 2) (some 2), by decide, rfl, rfl⟩ rfl⟩

/-- Claim C5 (code-bug exhibit): `k = 0` is not rejected anywhere: for every
snapshot the result is silently the empty mapping (the slice
`pool[i+1 : i+1]` is always empty), even when the same snapshot produces
scores at k = 1 (second conjunct). -/
theorem c5_k_zero_silent_noop :
    (∀ (db : DB) (x : Nat), compute_vorp_drop db 0 x = none) ∧
    compute_vorp_drop c5db 1 1 = some 5 := by
  constructor
  · exact fun db x => compute_vorp_drop_zero db x
  · simp +decide only [compute_vorp_drop, c5db, mkPlayer, need_qb, need_rb,
      need_wr, need_te, need_flex, total_needed_qb, total_needed_rb,
      total_needed_wr, total_needed_te, total_needed_flex, count_drafted,
      surplus_qb, surplus_rb, surplus_wr, flex_eligible_positions,
      score_pool_eq_scoreRec, sorted_pool, List.insertionSort,
      List.orderedInsert, List.filter, scoreRec, stepOne, dictSet, emptyMap,
      qmean, List.take, List.filterMap, List.isEmpty, List.sum_cons,
      List.sum_nil, List.length, List.map]
    norm_num [dictSet, emptyMap]

/-- Claim C6 counterexample: the NULL-valued player id 2 does occupy a rank
in the QB pool of `c6db` (it is its second element) and does appear in the
k-successor window slice used when scoring the top player. -/
theorem c6_null_occupies_rank_counterexample :
    sorted_pool c6db (fun p => p.position == "QB") =
      [mkPlayer 1 "QB" (some 10) none, mkPlayer 2 "QB" none none] ∧
    pySlice (sorted_pool c6db (fun p => p.position == "QB")) (0 + 1)
        (0 + 1 + 6) = [mkPlayer 2 "QB" none none] ∧
    (mkPlayer 2 "QB" none none).projected_points = none := by
  refine ⟨by decide, by decide, rfl⟩

/-- Claim C6 (amended): a player with NULL projected value never receives an
entry in the output mapping; such players do occupy ranks (at the tail of
each pool, where descending order puts NULLs) and can appear in window
slices, but they are dropped from every mean, so every score — and the whole
resulting store — is exactly that of the pool with them removed. -/
theorem c6_null_players_amended :
    (∀ (db : DB) (k : Int) (p : Player),
      (db.players.map Player.id).Nodup →
      p ∈ db.players →
      p.projected_points = none →
      compute_vorp_drop db k p.id = none) ∧
    (∀ (db : DB) (k : Int) (whereq : Player → Bool) (store : DropMap),
      0 ≤ k →
      score_pool k (sorted_pool db whereq) store =
        score_pool k ((sorted_pool db whereq).filter
          (fun p => p.projected_points.isSome)) store) := by
  constructor
  · intro db k p hnd hp hnone
    apply compute_vorp_drop_skip
    intro q hq hqid
    left
    have hqp : q = p := List.inj_on_of_nodup_map hnd hq hp hqid
    rw [hqp]
    exact hnone
  · intro db k whereq store hk
    exact score_pool_filter_valued k hk db whereq store

/-- Witness for C6 on `c6db`: the NULL-valued player 2 gets no entry, and
the QB-pool scoring equals that of the NULL-free pool. -/
theorem c6_null_players_amended_witness :
    compute_vorp_drop c6db 6 2 = none ∧
    score_pool 6 (sorted_pool c6db (fun p => p.position == "QB")) emptyMap =
      score_pool 6 ((sorted_pool c6db (fun p => p.position == "QB")).filter
        (fun p => p.projected_points.isSome)) emptyMap :=
  ⟨c6_null_players_amended.1 c6db 6 (mkPlayer 2 "QB" none none) (by decide)
      (by decide) rfl,
   c6_null_players_amended.2 c6db 6 _ emptyMap (by decide)⟩

/-- Claim C7: the code's FLEX need equals the spec formula
`max(0, teams × flexSlots − Σ surplus over eligible positions)`, is never
negative, and is non-increasing in each eligible position's surplus (same
settings row, so team count and flex slots fixed). -/
theorem c7_need_flex_formula :
    (∀ (db : DB) (s : DraftSettings),
      need_flex db s =
        needed_flex_spec s.total_teams s.flex_slots (drafted_of db)
          (slots_of s)) ∧
    (∀ (db : DB) (s : DraftSettings), 0 ≤ need_flex db s) ∧
    (∀ (db1 db2 : DB) (s : DraftSettings),
      surplus_qb db1 s ≤ surplus_qb db2 s →
      surplus_rb db1 s ≤ surplus_rb db2 s →
      surplus_wr db1 s ≤ surplus_wr db2 s →
      need_flex db2 s ≤ need_flex db1 s) := by
  refine ⟨?_, ?_, ?_⟩
  · intro db s
    unfold need_flex needed_flex_spec total_needed_flex surplus_qb surplus_rb
      surplus_wr total_needed_qb total_needed_rb total_needed_wr drafted_of
      slots_of flex_eligible_positions
    simp +decide only [List.map_cons, List.map_nil, List.sum_cons,
      List.sum_nil, if_true, if_false]
    congr 1
    ring
  · intro db s
    exact le_max_left 0 _
  · intro db1 db2 s h1 h2 h3
    unfold need_flex
    exact max_le_max (le_refl 0)
      (sub_le_sub_left (add_le_add (add_le_add h1 h2) h3) _)

/-- Witness for C7 on `c7dbA` (no surplus) and `c7dbB` (RB surplus 1): the
formula holds, the need is non-negative, and the extra surplus does not
increase the need. -/
theorem c7_need_flex_formula_witness :
    need_flex c7dbA c7settings =
      needed_flex_spec c7settings.total_teams c7settings.flex_slots
        (drafted_of c7dbA) (slots_of c7settings) ∧
    0 ≤ need_flex c7dbA c7settings ∧
    need_flex c7dbB c7settings ≤ need_flex c7dbA c7settings :=
  ⟨c7_need_flex_formula.1 c7dbA c7settings,
   c7_need_flex_formula.2.1 c7dbA c7settings,
   c7_need_flex_formula.2.2 c7dbA c7dbB c7settings (by decide) (by decide)
     (by decide)⟩

/-- Claim C8 counterexample: `c8l1` and `c8l2` both satisfy everything the
ranking query specifies for the QB pool of `c8db` (a permutation of the
matching rows, sorted by descending projected points), yet they give player 1
different drop scores — the ordering of equal-valued players is not
determined by the code, so no deterministic secondary key is in effect. -/
theorem c8_tie_order_counterexample :
    IsPoolResult c8db (fun p => p.position == "QB") c8l1 ∧
    IsPoolResult c8db (fun p => p.position == "QB") c8l2 ∧
    score_pool 1 c8l1 emptyMap 1 = some 0 ∧
    score_pool 1 c8l2 emptyMap 1 = some 6 := by
  refine ⟨⟨by decide, by decide⟩, ⟨by decide, by decide⟩, ?_, ?_⟩
  · simp +decide only [c8l1, mkPlayer, score_pool_eq_scoreRec, scoreRec,
      stepOne, dictSet, emptyMap, qmean, List.take, List.filterMap,
      List.isEmpty, List.sum_cons, List.sum_nil, List.length, List.map]
    norm_num [dictSet, emptyMap]
  · simp +decide only [c8l2, mkPlayer, score_pool_eq_scoreRec, scoreRec,
      stepOne, dictSet, emptyMap, qmean, List.take, List.filterMap,
      List.isEmpty, List.sum_cons, List.sum_nil, List.length, List.map]
    norm_num [dictSet, emptyMap]

/-- Claim C8 (amended): the ranking query constrains its result only to be a
value-descending permutation of the matching rows; the embedded ranker
always returns one such compliant ordering, but equal-valued players' order
is not fixed by the code (see the counterexample). -/
theorem c8_sorted_pool_is_pool_result (db : DB) (whereq : Player → Bool) :
    IsPoolResult db whereq (sorted_pool db whereq) :=
  ⟨List.perm_insertionSort poolLe _, List.sorted_insertionSort poolLe _⟩

/-- Claim C9: bulk import is all-or-nothing: with a valid header, if any row
fails validation the whole import is rejected with the full per-row error
list (one entry for every failing row, none for valid ones) and the players
table is unchanged; if every row is valid, the table is replaced in one
transaction by exactly the parsed players and the inserted count — the number
of rows — is returned. -/
theorem c9_import_all_or_nothing (dbPlayers : List Player)
    (fieldnames : List String) (rows : List Row)
    (hheader : missingColumns fieldnames = []) :
    (rows.enum.filterMap (rowFailure fieldnames (headersLower fieldnames)) ≠
        [] →
      reset_players dbPlayers fieldnames rows =
        (dbPlayers, .error (.rowErrors (rows.enum.filterMap
          (rowFailure fieldnames (headersLower fieldnames)))))) ∧
    (rows.enum.filterMap (rowFailure fieldnames (headersLower fieldnames)) =
        [] →
      reset_players dbPlayers fieldnames rows =
        (mk_players (rows.enum.filterMap
          (rowOutcome fieldnames (headersLower fieldnames))),
         .ok rows.length)) := by
  unfold headersLower
  have hmiss : (REQUIRED_COLUMNS.filter
      (fun c => !((fieldnames.map (fun h => pyLower (pyStrip h))).contains c)))
      = [] := hheader
  have hfold := import_foldl_split fieldnames
    (fieldnames.map (fun h => pyLower (pyStrip h))) rows.enum [] []
  rw [List.nil_append, List.nil_append] at hfold
  constructor
  · intro herr
    simp only [reset_players, parse_players_csv]
    rw [hmiss]
    simp only [List.isEmpty_nil, Bool.not_true, Bool.false_eq_true, if_false,
      hfold]
    have hcond : (!(rows.enum.filterMap (rowFailure fieldnames
        (fieldnames.map (fun h => pyLower (pyStrip h))))).isEmpty) = true := by
      cases hE : (rows.enum.filterMap (rowFailure fieldnames
          (fieldnames.map (fun h => pyLower (pyStrip h))))).isEmpty
      · rfl
      · exact absurd (List.isEmpty_iff.mp (by rw [hE])) herr
    rw [if_pos hcond]
  · intro hok
    simp only [reset_players, parse_players_csv]
    rw [hmiss]
    simp only [List.isEmpty_nil, Bool.not_true, Bool.false_eq_true, if_false,
      hfold]
    have hcond : (!(rows.enum.filterMap (rowFailure fieldnames
        (fieldnames.map (fun h => pyLower (pyStrip h))))).isEmpty) = false := by
      rw [hok]
      rfl
    rw [if_neg (by simp [hcond])]
    show ((mk_players (rows.enum.filterMap (rowOutcome fieldnames
          (fieldnames.map (fun h => pyLower (pyStrip h))))),
        Except.ok ((rows.enum.filterMap (rowOutcome fieldnames
          (fieldnames.map (fun h => pyLower (pyStrip h))))).length)) :
        List Player × Except ImportError Nat) = _
    have hlen : (rows.enum.filterMap (rowOutcome fieldnames
        (fieldnames.map (fun h => pyLower (pyStrip h))))).length =
        rows.length :=
      (length_filterMap_all_ok fieldnames _ rows.enum
        (List.filterMap_eq_nil_iff.mp hok)).trans List.enum_length
    rw [hlen]

/-- Witness for C9: the bad upload (row 3 has a non-numeric projected value,
row 4 an empty name) is rejected with both errors and leaves the table as it
was; the good upload replaces the table and returns count 1. -/
theorem c9_import_all_or_nothing_witness :
    reset_players c9dbPlayers c9fieldnames c9badRows =
      (c9dbPlayers, .error (.rowErrors
        [⟨3, "must be a number"⟩, ⟨4, "name is required"⟩])) ∧
    (reset_players c9dbPlayers c9fieldnames c9goodRows).2 = .ok 1 := by
  constructor
  · have h := (c9_import_all_or_nothing c9dbPlayers c9fieldnames c9badRows
      (by decide)).1 (by decide)
    have hlist : (c9badRows.enum.filterMap
        (rowFailure c9fieldnames (headersLower c9fieldnames))) =
        [⟨3, "must be a number"⟩, ⟨4, "name is required"⟩] := by decide
    rw [hlist] at h
    exact h
  · have h := (c9_import_all_or_nothing c9dbPlayers c9fieldnames c9goodRows
      (by decide)).2 (by decide)
    rw [h]
    rfl

/-- Claim C10: only the four position pools (QB, RB, WR, TE) and the FLEX
pool over RB/WR/QB are ever scored, so a player whose position is outside
that set (kickers, defenses, anything else) never appears as a key. -/
theorem c10_positions_outside_pools (db : DB) (k : Int) (p : Player)
    (hnd : (db.players.map Player.id).Nodup)
    (hp : p ∈ db.players)
    (hpos : p.position ∉ (["QB", "RB", "WR", "TE"] : List String)) :
    compute_vorp_drop db k p.id = none := by
  apply compute_vorp_drop_skip
  intro q hq hqid
  right
  have hqp : q = p := List.inj_on_of_nodup_map hnd hq hp hqid
  rw [hqp]
  exact hpos

/-- Witness for C10: the kicker (id 5) in `c10db` gets no entry. -/
theorem c10_positions_outside_pools_witness :
    compute_vorp_drop c10db 6 5 = none :=
  c10_positions_outside_pools c10db 6 (mkPlayer 5 "K" (some 99) none)
    (by decide) (by decide) (by decide)

end PopActa
